import Mathlib

/-!
Verification of the genomerator streaming interval-algebra engine.

The definitions below are a shallow embedding of the Python source:
`genomerator/GenomeFeature.py` (interval records and their algebra),
`genomerator/container.py` (`GenomeArray`, `GenomeBuffer`) and
`genomerator/generator.py` (`FeatureOverlapper`, `OperationGenerator`).
Positions are 1-based Python ints, modelled as `Int`; reference ids are
non-negative ints, modelled as `Nat`; the opaque per-record payload is a
type parameter `δ`.  In-place mutation is modelled by returning the
post-state; a raised exception is modelled by an explicit error value.
-/

namespace Genomerator

/-- A genome feature: `GenomeFeature.__slots__` = reference_id, left_pos,
right_pos, is_reverse, data.  The constructor asserts `reference_id >= 0`
(hence `Nat`) and `right_pos >= left_pos`; that well-formedness is carried
as a hypothesis where a theorem needs it. -/
structure GenomeFeature (δ : Type) where
  reference_id : Nat
  left_pos : Int
  right_pos : Int
  is_reverse : Bool
  data : δ
  deriving Repr, DecidableEq

namespace GenomeFeature

variable {δ δ₂ : Type}

/-- `len(self) = right_pos - left_pos + 1` (`__len__`). -/
def flen (f : GenomeFeature δ) : Int := f.right_pos - f.left_pos + 1

/-- `__eq__`: compares `(reference_id, left_pos)` only; `right_pos` is
deliberately excluded. -/
def featEq (a b : GenomeFeature δ) : Bool :=
  a.reference_id == b.reference_id && a.left_pos == b.left_pos

/-- `__lt__`: lexicographic on `(reference_id, left_pos)`. -/
def featLt (a b : GenomeFeature δ) : Bool :=
  a.reference_id < b.reference_id ||
    (a.reference_id == b.reference_id && a.left_pos < b.left_pos)

/-- `__le__`: `self == other or self < other`. -/
def featLe (a b : GenomeFeature δ) : Bool := featEq a b || featLt a b

/-- Lexicographic strict order on bare `(reference_id, position)` pairs;
this is what `__lt__` computes on the single-position features produced by
the `.left` / `.right` properties. -/
def pairLt (a b : Nat × Int) : Bool :=
  a.1 < b.1 || (a.1 == b.1 && a.2 < b.2)

/-- `left_of`: `self.right < other.left` (single-position comparison). -/
def left_of (a b : GenomeFeature δ) : Bool :=
  pairLt (a.reference_id, a.right_pos) (b.reference_id, b.left_pos)

/-- `right_of`: `self.left > other.right` (single-position comparison). -/
def right_of (a b : GenomeFeature δ) : Bool :=
  pairLt (b.reference_id, b.right_pos) (a.reference_id, a.left_pos)

/-- `intersects`: same reference and spans not disjoint. -/
def intersects (a b : GenomeFeature δ) : Bool :=
  b.reference_id == a.reference_id &&
    !(b.right_pos < a.left_pos || a.right_pos < b.left_pos)

/-- `intersection`: `None` if no overlap, else a new feature spanning
`[max(left_pos), min(right_pos)]` with this record's data; `is_reverse`
is not passed to the constructor, hence `false`.  (The constructor's
`right_pos >= left_pos` assertion cannot fire here when both operands are
well-formed, which the theorems assume.) -/
def intersection (a b : GenomeFeature δ) : Option (GenomeFeature δ) :=
  if intersects a b then
    some ⟨a.reference_id, max a.left_pos b.left_pos,
      min a.right_pos b.right_pos, false, a.data⟩
  else none

/-- `union`, modelled with its observable effects.  The source computes
`other.right_of(self.shift_right(1))`, where `shift_right` is the
*in-place* mutator: it adds 1 to `self.right_pos` (its `IndexError` guard
`1 < -(len-1)` cannot fire) and returns `None`, after which
`right_of(None)` dereferences `None.right` and raises `AttributeError`.
So on equal references `union` mutates `self` and raises; on different
references the `or` short-circuits and returns `None` untouched.  Result:
the post-state of `self` paired with either the returned value (`.ok`) or
the raised `AttributeError` (`.error`). -/
def union (a b : GenomeFeature δ) :
    GenomeFeature δ × Except Unit (Option (GenomeFeature δ)) :=
  if b.reference_id ≠ a.reference_id then (a, .ok none)
  else ({ a with right_pos := a.right_pos + 1 }, .error ())

/-- In-place `shift_left`: raises `IndexError` (the `Option Unit` flag)
when `distance > len(self) - 1`, before any mutation; else moves only the
left coordinate. -/
def shift_left (f : GenomeFeature δ) (distance : Int) :
    GenomeFeature δ × Option Unit :=
  if distance > flen f - 1 then (f, some ())
  else ({ f with left_pos := f.left_pos + distance }, none)

/-- In-place `shift_right`: raises `IndexError` when
`distance < -(len(self) - 1)`, before any mutation. -/
def shift_right (f : GenomeFeature δ) (distance : Int) :
    GenomeFeature δ × Option Unit :=
  if distance < -(flen f - 1) then (f, some ())
  else ({ f with right_pos := f.right_pos + distance }, none)

/-- In-place `shift`: moves both coordinates, never raises. -/
def shift (f : GenomeFeature δ) (distance : Int) :
    GenomeFeature δ × Option Unit :=
  ({ f with left_pos := f.left_pos + distance,
            right_pos := f.right_pos + distance }, none)

/-- `shift_start`: strand-aware delegation. -/
def shift_start (f : GenomeFeature δ) (distance : Int) :
    GenomeFeature δ × Option Unit :=
  if f.is_reverse then shift_right f (-distance) else shift_left f distance

/-- `shift_end`: strand-aware delegation. -/
def shift_end (f : GenomeFeature δ) (distance : Int) :
    GenomeFeature δ × Option Unit :=
  if f.is_reverse then shift_left f (-distance) else shift_right f distance

/-- `shift_forward`: strand-aware delegation to `shift`. -/
def shift_forward (f : GenomeFeature δ) (distance : Int) :
    GenomeFeature δ × Option Unit :=
  if f.is_reverse then shift f (-distance) else shift f distance

/-- The coordinate-and-strand projection of a record: everything except
the opaque payload.  Two records are "the same record of the input" for
order/multiplicity statements when the model tracks them through this
projection. -/
def stripData (f : GenomeFeature δ) : Nat × Int × Int × Bool :=
  (f.reference_id, f.left_pos, f.right_pos, f.is_reverse)

/-- Ascending (non-decreasing) input order under `__le__`, the order every
sorted component assumes: each record `>=` its predecessor. -/
def chainLEb : List (GenomeFeature δ) → Bool
  | [] => true
  | [_] => true
  | a :: b :: rest => featLe a b && chainLEb (b :: rest)

end GenomeFeature

/-- `GenomeArray` (the PositionWindow): a `GenomeFeature` subclass whose
`data` is a deque with one element per genome position, plus a
`default_factory` used to populate fresh positions.  The deque is
modelled as a `List`, the factory as the value it produces
(`default_elem`); `__init__` asserts `len(self.data) == len(self)`. -/
structure GenomeArray (δ : Type) where
  reference_id : Nat
  left_pos : Int
  right_pos : Int
  is_reverse : Bool
  data : List δ
  default_elem : δ
  deriving Repr, DecidableEq

namespace GenomeArray

variable {δ δ₂ : Type}

/-- Span length `right_pos - left_pos + 1`. -/
def spanLen (w : GenomeArray δ) : Int := w.right_pos - w.left_pos + 1

/-- The lock-step invariant of the payload deque: one element per genome
position. -/
def lockStep (w : GenomeArray δ) : Bool := (w.data.length : Int) == spanLen w

/-- `GenomeArray.shift_left`: the inherited `IndexError` guard
(`distance > len - 1`) fires before any mutation; else the left bound
moves, popping from the left for `distance > 0` or extending on the left
with default values for `distance < 0`.  (`popleft` repeated `d` times is
modelled by `List.drop`, exact whenever the deque has at least `d`
elements, as it does in lock-step states.) -/
def shift_left (w : GenomeArray δ) (distance : Int) :
    Except Unit (GenomeArray δ) :=
  if distance > spanLen w - 1 then .error ()
  else .ok { w with
    left_pos := w.left_pos + distance,
    data :=
      if distance > 0 then w.data.drop distance.toNat
      else if distance < 0 then
        List.replicate (-distance).toNat w.default_elem ++ w.data
      else w.data }

/-- `GenomeArray.shift_right`: guard `distance < -(len - 1)`; the right
bound moves, extending with defaults for `distance > 0` or popping from
the right for `distance < 0`. -/
def shift_right (w : GenomeArray δ) (distance : Int) :
    Except Unit (GenomeArray δ) :=
  if distance < -(spanLen w - 1) then .error ()
  else .ok { w with
    right_pos := w.right_pos + distance,
    data :=
      if distance > 0 then
        w.data ++ List.replicate distance.toNat w.default_elem
      else if distance < 0 then
        w.data.take (w.data.length - (-distance).toNat)
      else w.data }

/-- `GenomeArray.shift`: both coordinates move; if
`abs(distance) >= len(self)` the whole deque is rebuilt from defaults;
for `0 < distance < len` it pops `distance` from the left then extends
the right.  For `-len < distance < 0` the source runs
`for i in range(distance): self.data.pop()` — `range` of a *negative*
number is empty, so nothing is popped — and then extends on the left with
`-distance` default values. -/
def shift (w : GenomeArray δ) (distance : Int) : GenomeArray δ :=
  { w with
    left_pos := w.left_pos + distance,
    right_pos := w.right_pos + distance,
    data :=
      if |distance| ≥ spanLen w then
        List.replicate (spanLen w).toNat w.default_elem
      else if distance > 0 then
        w.data.drop distance.toNat ++
          List.replicate distance.toNat w.default_elem
      else if distance < 0 then
        List.replicate (-distance).toNat w.default_elem ++ w.data
      else w.data }

/-- `move`: repositions both coordinates without touching the data. -/
def move (w : GenomeArray δ) (distance : Int) : GenomeArray δ :=
  { w with left_pos := w.left_pos + distance,
           right_pos := w.right_pos + distance }

/-- `append`: push one value on the right, `right_pos += 1`. -/
def append (w : GenomeArray δ) (v : δ) : GenomeArray δ :=
  { w with data := w.data ++ [v], right_pos := w.right_pos + 1 }

/-- `appendleft`: push one value on the left, `left_pos -= 1`. -/
def appendleft (w : GenomeArray δ) (v : δ) : GenomeArray δ :=
  { w with data := v :: w.data, left_pos := w.left_pos - 1 }

/-- `extend`: push values on the right, `right_pos += len(values)`. -/
def extend (w : GenomeArray δ) (vs : List δ) : GenomeArray δ :=
  { w with data := w.data ++ vs, right_pos := w.right_pos + vs.length }

/-- `extendleft`: `deque.extendleft` prepends the values in reversed
order; `left_pos -= len(values)`. -/
def extendleft (w : GenomeArray δ) (vs : List δ) : GenomeArray δ :=
  { w with data := vs.reverse ++ w.data, left_pos := w.left_pos - vs.length }

/-- `pop`: drop the rightmost value, `right_pos -= 1`. -/
def pop (w : GenomeArray δ) : GenomeArray δ :=
  { w with data := w.data.dropLast, right_pos := w.right_pos - 1 }

/-- `popleft`: drop the leftmost value, `left_pos += 1`. -/
def popleft (w : GenomeArray δ) : GenomeArray δ :=
  { w with data := w.data.tail, left_pos := w.left_pos + 1 }

/-- `GenomeArray.intersection`: `None` on a different reference or when
the spans are disjoint; otherwise it builds a new `GenomeArray` over
`[max(left_pos), min(right_pos)]` whose deque is
`self.data[i] for i in range(new_left - left_pos, new_right - left_pos)`
— an *exclusive* upper bound, so `new_right - new_left` elements — and
the constructor then asserts `len(data) == len(self)` i.e.
`new_right - new_left + 1` elements; the failed assertion is `.error`. -/
def intersection (w : GenomeArray δ) (other : GenomeFeature δ₂) :
    Except Unit (Option (GenomeArray δ)) :=
  if other.reference_id ≠ w.reference_id then .ok none
  else if other.right_pos < w.left_pos || w.right_pos < other.left_pos then
    .ok none
  else
    let newLeft := max w.left_pos other.left_pos
    let newRight := min w.right_pos other.right_pos
    let sliced := (w.data.drop (newLeft - w.left_pos).toNat).take
      (newRight - newLeft).toNat
    if (sliced.length : Int) = newRight - newLeft + 1 then
      .ok (some { w with left_pos := newLeft, right_pos := newRight,
                         data := sliced })
    else .error ()

end GenomeArray

open GenomeFeature

/-- `GenomeBuffer` state: the aggregate span (`reference_id`, `left_pos`,
`right_pos` inherited from `GenomeFeature`), the deque of buffered
features (`self.data`), and the not-yet-pulled remainder of the source
iterable. -/
structure GBState (δ : Type) where
  reference_id : Nat
  left_pos : Int
  right_pos : Int
  buf : List (GenomeFeature δ)
  src : List (GenomeFeature δ)
  deriving Repr, DecidableEq

/-- Outcome of one `GenomeBuffer.advance()` call: the returned eviction
list, or `StopIteration` (with the list of features the call popped off
the buffer before raising — the source drops that local list), or the
`RuntimeError` raised on unsorted input, carrying its message. -/
inductive GBStep (δ : Type) where
  | output (evicted : List (GenomeFeature δ))
  | exhausted (drained : List (GenomeFeature δ))
  | sortError (msg : String)
  deriving Repr, DecidableEq

namespace GenomeBuffer

variable {δ : Type}

/-- `GenomeBuffer.__init__`: pulls the first feature, spans its
coordinates, buffers it. -/
def init (f : GenomeFeature δ) (rest : List (GenomeFeature δ)) : GBState δ :=
  ⟨f.reference_id, f.left_pos, f.right_pos, [f], rest⟩

/-- One `advance()` call, returning the post-state and the outcome.
With the source exhausted, the eviction loop (`next_feature is None`)
pops the whole buffer into the local `output` list and then
`StopIteration` is raised.  Otherwise: the sort check compares the pulled
feature against `self.data[-1]` under `>=`; the eviction condition
`next_feature.right_of(self)` reads the still-unmodified span and does
not depend on the popped elements, so it either empties the buffer or
leaves it whole; then the new feature is appended and the span is
updated: `left_pos` from `self.data[0]`, and for `right_pos` the source
assigns `self.reference_id = next_feature.reference_id` *before* reading
`self.right`, so `max(self.right, next_feature.right)` compares two
single-position views that both already carry the new reference_id — a
plain numeric max of the old and new `right_pos` (a stale numerically
larger right from a lower reference persists across a reference
boundary, despite the source comment's stated intent). -/
def advance (st : GBState δ) : GBState δ × GBStep δ :=
  match st.src with
  | [] => ({ st with buf := [] }, .exhausted st.buf)
  | x :: rest =>
    match st.buf.getLast? with
    | some last =>
      if !(featLe last x) then
        ({ st with src := rest }, .sortError "features not sorted correctly")
      else
        let evictAll := pairLt (st.reference_id, st.right_pos)
          (x.reference_id, x.left_pos)
        let evicted := if evictAll then st.buf else []
        let kept := if evictAll then [] else st.buf
        let newBuf := kept ++ [x]
        ({ reference_id := x.reference_id,
           left_pos := match kept with
             | [] => x.left_pos
             | y :: _ => y.left_pos,
           right_pos := if pairLt (x.reference_id, st.right_pos)
               (x.reference_id, x.right_pos)
             then x.right_pos else st.right_pos,
           buf := newBuf, src := rest }, .output evicted)
    | none =>
      -- unreachable from `init`: the buffer always holds the last
      -- appended feature when a new one is pulled; modelled like the
      -- source, whose sort check is skipped on an empty buffer
      ({ reference_id := x.reference_id, left_pos := x.left_pos,
         right_pos := x.right_pos, buf := [x], src := rest }, .output [])

/-- The full observable run: call `advance()` until `StopIteration` or
`RuntimeError`, collecting each call's returned list, the list drained by
the exhausting call, the error message if one was raised, and the final
state.  `fuel` bounds the recursion; every theorem supplies
`st.src.length + 1`, which is exactly enough. -/
def run (fuel : Nat) (st : GBState δ) :
    List (List (GenomeFeature δ)) × List (GenomeFeature δ) ×
      Option String × GBState δ :=
  match fuel with
  | 0 => ([], [], none, st)
  | fuel + 1 =>
    match advance st with
    | (st2, .output o) =>
      let (outs, dr, e, fin) := run fuel st2
      (o :: outs, dr, e, fin)
    | (st2, .exhausted d) => ([], d, none, st2)
    | (st2, .sortError m) => ([], [], some m, st2)

end GenomeBuffer

namespace FeatureOverlapper

variable {δ : Type}

/-- The envelope `FeatureOverlapper` stores in its own
`reference_id`/`left_pos`/`right_pos` attributes (unset until the first
feature arrives, hence `Option`). -/
abbrev Env := Nat × Int × Int

/-- The stored envelope's `intersects` test against a new feature
(`self.intersects(feature)` with `self` the overlapper). -/
def envIntersects (e : Env) (f : GenomeFeature δ) : Bool :=
  f.reference_id == e.1 &&
    !(f.right_pos < e.2.1 || e.2.2 < f.left_pos)

/-- `FeatureOverlapper._yield_groups`, run to completion on a source
list.  Per feature: the `assert` order check against `self._buffer[-1]`
(an `AssertionError` aborts the generator; the model stops, reporting how
many source records were consumed); then either the feature is appended
to the current group and the envelope's `right_pos` is overwritten with
the feature's `right_pos`, or the nonempty current group is yielded and a
fresh group starts.  At the end of the source the last nonempty group is
yielded.  Returns (groups yielded, source records consumed, error?). -/
def runAux : List (GenomeFeature δ) → List (GenomeFeature δ) → Option Env →
    List (List (GenomeFeature δ)) × Nat × Bool
  | [], buf, _ => (if buf.isEmpty then [] else [buf], 0, false)
  | f :: rest, buf, env =>
    if !(buf.isEmpty || featLe (buf.getLast?.getD f) f) then
      ([], 1, true)
    else
      match env with
      | some e =>
        if !buf.isEmpty && envIntersects e f then
          let (gs, n, err) :=
            runAux rest (buf ++ [f]) (some (e.1, e.2.1, f.right_pos))
          (gs, n + 1, err)
        else
          let (gs, n, err) :=
            runAux rest [f] (some (f.reference_id, f.left_pos, f.right_pos))
          ((if buf.isEmpty then gs else buf :: gs), n + 1, err)
      | none =>
        let (gs, n, err) :=
          runAux rest [f] (some (f.reference_id, f.left_pos, f.right_pos))
        ((if buf.isEmpty then gs else buf :: gs), n + 1, err)

/-- Whole-stream run of the overlapper from its initial state (empty
buffer, envelope attributes unset). -/
def run (fs : List (GenomeFeature δ)) :
    List (List (GenomeFeature δ)) × Nat × Bool :=
  runAux fs [] none

/-- The groups the overlapper emits. -/
def groups (fs : List (GenomeFeature δ)) : List (List (GenomeFeature δ)) :=
  (run fs).1

/-- Modelled from the spec claim's words, for comparison with the source:
a new record joins the current group iff it intersects the span
`(reference_id, min left_pos, max right_pos)` over *all* records already
in the group. -/
def claimEnvelope (g : List (GenomeFeature δ)) (f : GenomeFeature δ) : Bool :=
  match g with
  | [] => false
  | x :: rest =>
    envIntersects
      (x.reference_id,
        (rest.map GenomeFeature.left_pos).foldl min x.left_pos,
        (rest.map GenomeFeature.right_pos).foldl max x.right_pos) f

/-- The grouping rule the source actually implements, written directly in
terms of the group contents: a record joins the current nonempty group
iff it intersects the span made of the group head's reference and
left position and the *most recently added* record's right position. -/
def codeJoins (g : List (GenomeFeature δ)) (f : GenomeFeature δ) : Bool :=
  match g, g.getLast? with
  | x :: _, some l => envIntersects (x.reference_id, x.left_pos, l.right_pos) f
  | _, _ => false

/-- Reference restatement of the grouping loop using `codeJoins` (no
stored envelope): used to characterise the source's grouping decision. -/
def specRun : List (GenomeFeature δ) → List (GenomeFeature δ) →
    List (List (GenomeFeature δ))
  | [], buf => if buf.isEmpty then [] else [buf]
  | f :: rest, buf =>
    if codeJoins buf f then specRun rest (buf ++ [f])
    else if buf.isEmpty then specRun rest [f]
    else buf :: specRun rest [f]

/-- The chain-grouping of a stream per the source's decision rule. -/
def specGroups (fs : List (GenomeFeature δ)) : List (List (GenomeFeature δ)) :=
  specRun fs []

end FeatureOverlapper

namespace OperationGenerator

variable {δ : Type}

/-- The configurable strategy slots of `OperationGenerator.__init__`
(`match` is a Lean keyword, hence the field name `matchf`). -/
structure Config (δ : Type) where
  operate : GenomeFeature δ → GenomeFeature δ → GenomeFeature δ
  matchf : GenomeFeature δ → GenomeFeature δ → Bool
  a_is_passed : GenomeFeature δ → GenomeFeature δ → Bool
  b_is_passed : GenomeFeature δ → GenomeFeature δ → Bool
  stop_at_first_match : Bool

/-- The all-default configuration, except `operate` which mutates only
`data` and is kept abstract: `match` is `intersects`, `a_is_passed` is
`a.left_of(b)`, `b_is_passed` is `a.right_of(b)`,
`stop_at_first_match = False`. -/
def defaultCfg (operate : GenomeFeature δ → GenomeFeature δ → GenomeFeature δ) :
    Config δ :=
  ⟨operate, fun a b => intersects a b, fun a b => left_of a b,
    fun a b => right_of a b, false⟩

/-- The literal default `operate`: `a.data += 1` on a numeric payload. -/
def defaultOperate (a _b : GenomeFeature Int) : GenomeFeature Int :=
  { a with data := a.data + 1 }

/-- Step 2 of `_yield_features`: pull features from `a` — immediately
yielding any that already satisfy `a_is_passed` while the buffer is
empty, otherwise appending them — until one satisfies `b_is_passed` or
`a` runs out.  Arguments: remaining `a`, current buffer; returns
(yielded, new buffer, remaining `a`). -/
def pull (cfg : Config δ) (bf : GenomeFeature δ) :
    List (GenomeFeature δ) → List (GenomeFeature δ) →
      List (GenomeFeature δ) × List (GenomeFeature δ) × List (GenomeFeature δ)
  | [], buf => ([], buf, [])
  | x :: rest, buf =>
    if buf.isEmpty && cfg.a_is_passed x bf then
      let (y, b2, r2) := pull cfg bf rest buf
      (x :: y, b2, r2)
    else
      let buf2 := buf ++ [x]
      if cfg.b_is_passed x bf then ([], buf2, rest)
      else pull cfg bf rest buf2

/-- Step 3 of `_yield_features`: scan the buffer in order, applying
`operate` on every `match` (in place: the element is replaced), breaking
at the first match when `stop_at_first_match`, and breaking once a
non-matching buffered feature satisfies `b_is_passed`. -/
def scan (cfg : Config δ) (bf : GenomeFeature δ) :
    List (GenomeFeature δ) → List (GenomeFeature δ)
  | [] => []
  | x :: rest =>
    if cfg.matchf x bf then
      let x2 := cfg.operate x bf
      if cfg.stop_at_first_match then x2 :: rest
      else x2 :: scan cfg bf rest
    else if cfg.b_is_passed x bf then x :: rest
    else x :: scan cfg bf rest

/-- Processing of one `b` feature: flush the `a_is_passed` prefix of the
buffer (yielding it), pull more `a` features if the buffer is empty or
its last member is not yet `b_is_passed`, then scan.  State is
(remaining `a`, buffer); also returns this `b`'s yielded output. -/
def stepB (cfg : Config δ)
    (st : List (GenomeFeature δ) × List (GenomeFeature δ))
    (bf : GenomeFeature δ) :
    (List (GenomeFeature δ) × List (GenomeFeature δ)) × List (GenomeFeature δ) :=
  let (aRem, buf) := st
  let out1 := buf.takeWhile (fun a => cfg.a_is_passed a bf)
  let buf1 := buf.dropWhile (fun a => cfg.a_is_passed a bf)
  let doPull := match buf1.getLast? with
    | none => true
    | some last => !(cfg.b_is_passed last bf)
  let (out2, buf2, aRem2) :=
    if doPull then pull cfg bf aRem buf1 else ([], buf1, aRem)
  ((aRem2, scan cfg bf buf2), out1 ++ out2)

/-- The loop over the `b` stream, threading the state and concatenating
each `b`'s output. -/
def runB (cfg : Config δ) :
    List (GenomeFeature δ) →
      List (GenomeFeature δ) × List (GenomeFeature δ) →
      (List (GenomeFeature δ) × List (GenomeFeature δ)) × List (GenomeFeature δ)
  | [], st => (st, [])
  | bf :: bs, st =>
    let (st1, out1) := stepB cfg st bf
    let (st2, out2) := runB cfg bs st1
    (st2, out1 ++ out2)

/-- The whole `_yield_features` output: the per-`b` yields, then the
purge of the remaining buffer, then the drain of the untouched remainder
of `a`. -/
def run (cfg : Config δ) (a b : List (GenomeFeature δ)) :
    List (GenomeFeature δ) :=
  let ((aRem, buf), out) := runB cfg b (a, [])
  out ++ buf ++ aRem

end OperationGenerator

/-! ### Theorems -/

/-- The last element of a list with an element appended. -/
lemma getLast?_append_single {α : Type} (l : List α) (a : α) :
    (l ++ [a]).getLast? = some a :=
  List.getLast?_concat l

/-- One ascending step splits off the head comparison. -/
lemma chainLEb_cons_cons {δ : Type} (a b : GenomeFeature δ)
    (rest : List (GenomeFeature δ)) :
    chainLEb (a :: b :: rest) = (featLe a b && chainLEb (b :: rest)) := rfl

namespace OperationGenerator

variable {δ : Type}

/-- The pull loop hands every remaining `a` feature onward exactly once:
its immediate yields, then the new buffer, then the unconsumed remainder
are the old buffer plus the old remainder, unchanged and in order. -/
lemma pull_conserves (cfg : Config δ) (bf : GenomeFeature δ) :
    ∀ (aRem buf : List (GenomeFeature δ)),
      (pull cfg bf aRem buf).1 ++ (pull cfg bf aRem buf).2.1 ++
        (pull cfg bf aRem buf).2.2 = buf ++ aRem := by
  intro aRem
  induction aRem with
  | nil => intro buf; simp [pull]
  | cons x rest ih =>
    intro buf
    by_cases h1 : (buf.isEmpty && cfg.a_is_passed x bf) = true
    · rw [Bool.and_eq_true] at h1
      have hbuf : buf = [] := List.isEmpty_iff.mp h1.1
      simp [pull, hbuf, h1.2, ih]
    · by_cases h2 : cfg.b_is_passed x bf = true
      · simp [pull, h1, h2]
      · have := ih (buf ++ [x])
        simp only [pull, h1, h2, Bool.false_eq_true, if_false] at *
        simpa [List.append_assoc] using this

/-- The buffer scan rewrites only payloads: its result equals the input
buffer under the coordinate projection, provided `operate` touches only
`data`. -/
lemma scan_strip (cfg : Config δ)
    (hop : ∀ x y, stripData (cfg.operate x y) = stripData x)
    (bf : GenomeFeature δ) :
    ∀ l : List (GenomeFeature δ),
      (scan cfg bf l).map stripData = l.map stripData := by
  intro l
  induction l with
  | nil => simp [scan]
  | cons x rest ih =>
    by_cases h1 : cfg.matchf x bf = true
    · by_cases h2 : cfg.stop_at_first_match = true
      · simp [scan, h1, h2, hop]
      · simp [scan, h1, h2, hop, ih]
    · by_cases h3 : cfg.b_is_passed x bf = true <;>
        simp [scan, h1, h3, ih]

/-- Processing one `b` feature conserves the `a` records under the
coordinate projection: yielded ++ new buffer ++ new remainder equals old
buffer ++ old remainder. -/
lemma stepB_strip (cfg : Config δ)
    (hop : ∀ x y, stripData (cfg.operate x y) = stripData x)
    (aRem buf : List (GenomeFeature δ)) (bf : GenomeFeature δ) :
    (stepB cfg (aRem, buf) bf).2.map stripData ++
      (stepB cfg (aRem, buf) bf).1.2.map stripData ++
      (stepB cfg (aRem, buf) bf).1.1.map stripData =
      buf.map stripData ++ aRem.map stripData := by
  have hsplit := List.takeWhile_append_dropWhile
    (p := fun a => cfg.a_is_passed a bf) (l := buf)
  cases hdo : (match (buf.dropWhile (fun a => cfg.a_is_passed a bf)).getLast? with
    | none => true
    | some last => !(cfg.b_is_passed last bf)) with
  | true =>
    have hp2 := congrArg (List.map stripData) (pull_conserves cfg bf aRem
      (buf.dropWhile (fun a => cfg.a_is_passed a bf)))
    have hs2 := congrArg (List.map stripData) hsplit
    simp only [List.map_append, List.append_assoc] at hp2 hs2
    simp only [stepB, hdo, if_true, scan_strip cfg hop,
      List.map_append, List.append_assoc]
    rw [hp2, ← List.append_assoc, hs2]
  | false =>
    simp only [stepB, hdo, Bool.false_eq_true, if_false,
      scan_strip cfg hop, List.append_nil]
    rw [← List.map_append, hsplit]

/-- The whole `b` loop conserves the `a` records under the coordinate
projection. -/
lemma runB_strip (cfg : Config δ)
    (hop : ∀ x y, stripData (cfg.operate x y) = stripData x) :
    ∀ (bs aRem buf : List (GenomeFeature δ)),
      (runB cfg bs (aRem, buf)).2.map stripData ++
        (runB cfg bs (aRem, buf)).1.2.map stripData ++
        (runB cfg bs (aRem, buf)).1.1.map stripData =
        buf.map stripData ++ aRem.map stripData := by
  intro bs
  induction bs with
  | nil => intro aRem buf; simp [runB]
  | cons bf rest ih =>
    intro aRem buf
    rcases hst : stepB cfg (aRem, buf) bf with ⟨⟨aRem1, buf1⟩, out1⟩
    have h1 := stepB_strip cfg hop aRem buf bf
    rw [hst] at h1
    have h2 := ih aRem1 buf1
    simp only [runB, hst]
    rcases hrb : runB cfg rest (aRem1, buf1) with ⟨⟨aRem2, buf2⟩, out2⟩
    rw [hrb] at h2
    simp only at h1 h2 ⊢
    calc (out1 ++ out2).map stripData ++ buf2.map stripData ++ aRem2.map stripData
        = out1.map stripData ++ (out2.map stripData ++ buf2.map stripData ++ aRem2.map stripData) := by
          simp [List.append_assoc]
      _ = out1.map stripData ++ (buf1.map stripData ++ aRem1.map stripData) := by rw [h2]
      _ = buf.map stripData ++ aRem.map stripData := by
          rw [← List.append_assoc]; exact h1

end OperationGenerator

/-- Claim C3: with the default pass predicates (`match` = `intersects`,
`a_is_passed` = `a.left_of(b)`, `b_is_passed` = `a.right_of(b)`) and any
`operate` that rewrites only the payload, the merge join emits every
record of `a` exactly once, in `a`'s original relative order (the output
equals `a` under the coordinate-and-strand projection); and when `b` is
exhausted immediately the whole of `a` is emitted unchanged. -/
theorem c3_mergejoin_preserves_a {δ : Type}
    (operate : GenomeFeature δ → GenomeFeature δ → GenomeFeature δ)
    (hop : ∀ x y, stripData (operate x y) = stripData x)
    (a b : List (GenomeFeature δ))
    (_ha : chainLEb a = true) (_hb : chainLEb b = true) :
    (OperationGenerator.run (OperationGenerator.defaultCfg operate) a b).map
        stripData = a.map stripData ∧
    (b = [] →
      OperationGenerator.run (OperationGenerator.defaultCfg operate) a b = a) := by
  constructor
  · have h := OperationGenerator.runB_strip
      (OperationGenerator.defaultCfg operate) hop b a []
    rcases hrb : OperationGenerator.runB
        (OperationGenerator.defaultCfg operate) b (a, []) with ⟨⟨aRem, buf⟩, out⟩
    rw [hrb] at h
    simp only [List.map_nil, List.nil_append, List.append_nil] at h
    simp only [OperationGenerator.run, hrb]
    simpa [List.append_assoc] using h
  · rintro rfl
    rfl

/-- Closed witness for C3 with the literal default `operate`. -/
theorem c3_mergejoin_preserves_a_witness :
    (OperationGenerator.run
        (OperationGenerator.defaultCfg OperationGenerator.defaultOperate)
        [⟨0, 1, 10, false, 0⟩, ⟨0, 11, 20, false, 0⟩]
        [⟨0, 5, 5, false, 0⟩]).map stripData =
      ([⟨0, 1, 10, false, 0⟩, ⟨0, 11, 20, false, 0⟩] :
        List (GenomeFeature Int)).map stripData ∧
    (([⟨0, 5, 5, false, 0⟩] : List (GenomeFeature Int)) = [] →
      OperationGenerator.run
        (OperationGenerator.defaultCfg OperationGenerator.defaultOperate)
        [⟨0, 1, 10, false, 0⟩, ⟨0, 11, 20, false, 0⟩]
        [⟨0, 5, 5, false, 0⟩] =
        [⟨0, 1, 10, false, 0⟩, ⟨0, 11, 20, false, 0⟩]) :=
  c3_mergejoin_preserves_a OperationGenerator.defaultOperate
    (fun _ _ => rfl)
    [⟨0, 1, 10, false, 0⟩, ⟨0, 11, 20, false, 0⟩]
    [⟨0, 5, 5, false, 0⟩] (by decide) (by decide)

namespace FeatureOverlapper

variable {δ : Type}

/-- The stored envelope tracks (first record's reference and left
position, most recently appended record's right position): from any
nonempty buffer state whose envelope satisfies that characterisation and
whose source continues ascending from the last buffered record, the
generator runs without error, consumes the whole source, and produces
exactly the `specRun` grouping. -/
lemma runAux_spec :
    ∀ (src : List (GenomeFeature δ)) (x l : GenomeFeature δ)
      (mid : List (GenomeFeature δ)),
      (x :: mid).getLast? = some l →
      chainLEb (l :: src) = true →
      runAux src (x :: mid) (some (x.reference_id, x.left_pos, l.right_pos)) =
        (specRun src (x :: mid), src.length, false) := by
  intro src
  induction src with
  | nil =>
    intro x l mid _hl _hc
    simp [runAux, specRun]
  | cons f rest ih =>
    intro x l mid hl hc
    rw [chainLEb_cons_cons, Bool.and_eq_true] at hc
    obtain ⟨hle, hc2⟩ := hc
    have hjoin : codeJoins (x :: mid) f =
        envIntersects (x.reference_id, x.left_pos, l.right_pos) f := by
      simp [codeJoins, hl]
    by_cases hint :
        envIntersects (x.reference_id, x.left_pos, l.right_pos) f = true
    · have hlast2 : (x :: (mid ++ [f])).getLast? = some f := by
        rw [← List.cons_append]
        exact getLast?_append_single _ f
      have hrec := ih x f (mid ++ [f]) hlast2 hc2
      simp only [runAux, List.isEmpty_cons, hl, Option.getD_some, hle,
        Bool.or_true, Bool.not_true, Bool.false_eq_true, if_false,
        Bool.not_false, Bool.true_and, hint, if_true, List.cons_append]
      rw [hrec]
      simp [specRun, hjoin, hint]
    · have hrec := ih f f [] rfl hc2
      simp only [runAux, List.isEmpty_cons, hl, Option.getD_some, hle,
        Bool.or_true, Bool.not_true, Bool.false_eq_true, if_false,
        Bool.not_false, Bool.true_and, hint, if_false]
      rw [hrec]
      simp [specRun, hjoin, hint]

/-- `specRun` emits every buffered and incoming record exactly once, in
order. -/
lemma specRun_flatten :
    ∀ (src buf : List (GenomeFeature δ)),
      (specRun src buf).flatten = buf ++ src := by
  intro src
  induction src with
  | nil =>
    intro buf
    rcases buf with _ | ⟨x, mid⟩ <;> simp [specRun]
  | cons f rest ih =>
    intro buf
    rcases buf with _ | ⟨x, mid⟩
    · by_cases hj : codeJoins ([] : List (GenomeFeature δ)) f = true <;>
        simp [specRun, hj, ih]
    · by_cases hj : codeJoins (x :: mid) f = true <;>
        simp [specRun, hj, ih]

end FeatureOverlapper

/-- In `GenomeBuffer`, starting from any state whose buffer ends with
the most recently pulled record `l`, if the first order violation of
`l :: src` is at (1-based) offset `i` into `src`, then the run raises the
`RuntimeError` on exactly the `advance()` call that pulls that record:
the first `i - 1` calls return normally. -/
lemma gbRun_err_aux {δ : Type} :
    ∀ (src : List (GenomeFeature δ)) (st : GBState δ) (l : GenomeFeature δ)
      (i : Nat),
      st.src = src → st.buf.getLast? = some l →
      1 ≤ i → i ≤ src.length →
      chainLEb ((l :: src).take (i + 1)) = false →
      chainLEb ((l :: src).take i) = true →
      (GenomeBuffer.run (src.length + 1) st).2.2.1 =
        some "features not sorted correctly" ∧
      (GenomeBuffer.run (src.length + 1) st).1.length = i - 1 := by
  intro src
  induction src with
  | nil =>
    intro st l i _hsrc _hlast hi1 hi2 _h3 _h4
    simp only [List.length_nil] at hi2
    omega
  | cons x rest ih =>
    intro st l i hsrc hlast hi1 hi2 h3 h4
    rcases i with _ | i1
    · omega
    rcases i1 with _ | k
    · -- i = 1: the violating pair is (l, x); the first advance call errors
      have hviol : featLe l x = false := by
        simp only [List.take_succ_cons, List.take_zero,
          chainLEb_cons_cons] at h3
        simpa [chainLEb] using h3
      have hadv : GenomeBuffer.advance st =
          ({ st with src := rest },
            .sortError "features not sorted correctly") := by
        simp [GenomeBuffer.advance, hsrc, hlast, hviol]
      simp [GenomeBuffer.run, hadv]
    · -- i = k + 2: the first pair is in order, recurse after one call
      have h4' := h4
      simp only [List.take_succ_cons, chainLEb_cons_cons,
        Bool.and_eq_true] at h4'
      obtain ⟨hle, hc⟩ := h4'
      have h3' : chainLEb ((x :: rest).take (k + 1 + 1)) = false := by
        simp only [List.take_succ_cons, chainLEb_cons_cons] at h3
        simpa [hle, List.take_succ_cons] using h3
      have h4'' : chainLEb ((x :: rest).take (k + 1)) = true := by
        simpa [List.take_succ_cons] using hc
      by_cases hev : pairLt (st.reference_id, st.right_pos)
          (x.reference_id, x.left_pos) = true
      · have hadv : GenomeBuffer.advance st =
            ({ reference_id := x.reference_id, left_pos := x.left_pos,
               right_pos := if pairLt (x.reference_id, st.right_pos)
                   (x.reference_id, x.right_pos)
                 then x.right_pos else st.right_pos,
               buf := [x], src := rest }, .output st.buf) := by
          simp [GenomeBuffer.advance, hsrc, hlast, hle, hev]
        obtain ⟨e1, e2⟩ := ih
          { reference_id := x.reference_id, left_pos := x.left_pos,
            right_pos := if pairLt (x.reference_id, st.right_pos)
                (x.reference_id, x.right_pos)
              then x.right_pos else st.right_pos,
            buf := [x], src := rest } x (k + 1) rfl rfl (by omega)
          (by simp only [List.length_cons] at hi2; omega) h3' h4''
        refine ⟨?_, ?_⟩ <;> simp_all [GenomeBuffer.run, hadv]
      · have hadv : GenomeBuffer.advance st =
            ({ reference_id := x.reference_id,
               left_pos := match st.buf with
                 | [] => x.left_pos
                 | y :: _ => y.left_pos,
               right_pos := if pairLt (x.reference_id, st.right_pos)
                   (x.reference_id, x.right_pos)
                 then x.right_pos else st.right_pos,
               buf := st.buf ++ [x], src := rest }, .output []) := by
          simp [GenomeBuffer.advance, hsrc, hlast, hle, hev]
        obtain ⟨e1, e2⟩ := ih
          { reference_id := x.reference_id,
            left_pos := match st.buf with
              | [] => x.left_pos
              | y :: _ => y.left_pos,
            right_pos := if pairLt (x.reference_id, st.right_pos)
                (x.reference_id, x.right_pos)
              then x.right_pos else st.right_pos,
            buf := st.buf ++ [x], src := rest } x (k + 1) rfl
          (getLast?_append_single st.buf x) (by omega)
          (by simp only [List.length_cons] at hi2; omega) h3' h4''
        refine ⟨?_, ?_⟩ <;> simp_all [GenomeBuffer.run, hadv]

namespace FeatureOverlapper

/-- In the overlapper, from any state whose buffer ends with the
previously consumed record `l`, if the first order violation of
`l :: src` is at offset `i` into `src`, the `assert` fires exactly while
processing that record: `i` source records are consumed and the run ends
errored, regardless of the envelope state. -/
lemma runAux_err {δ : Type} :
    ∀ (src buf : List (GenomeFeature δ)) (env : Option Env)
      (l : GenomeFeature δ) (i : Nat),
      buf.getLast? = some l →
      1 ≤ i → i ≤ src.length →
      chainLEb ((l :: src).take (i + 1)) = false →
      chainLEb ((l :: src).take i) = true →
      (runAux src buf env).2.1 = i ∧ (runAux src buf env).2.2 = true := by
  intro src
  induction src with
  | nil =>
    intro buf env l i _hl hi1 hi2 _h3 _h4
    simp only [List.length_nil] at hi2
    omega
  | cons f rest ih =>
    intro buf env l i hl hi1 hi2 h3 h4
    rcases buf with _ | ⟨b0, bmid⟩
    · simp at hl
    rcases i with _ | i1
    · omega
    rcases i1 with _ | k
    · have hviol : featLe l f = false := by
        simp only [List.take_succ_cons, List.take_zero,
          chainLEb_cons_cons] at h3
        simpa [chainLEb] using h3
      simp [runAux, hl, hviol]
    · have h4' := h4
      simp only [List.take_succ_cons, chainLEb_cons_cons,
        Bool.and_eq_true] at h4'
      obtain ⟨hle, hc⟩ := h4'
      have h3' : chainLEb ((f :: rest).take (k + 1 + 1)) = false := by
        simp only [List.take_succ_cons, chainLEb_cons_cons] at h3
        simpa [hle, List.take_succ_cons] using h3
      have h4'' : chainLEb ((f :: rest).take (k + 1)) = true := by
        simpa [List.take_succ_cons] using hc
      have hi2' : k + 1 ≤ rest.length := by
        simp only [List.length_cons] at hi2; omega
      rcases env with _ | e
      · obtain ⟨e1, e2⟩ := ih [f]
          (some (f.reference_id, f.left_pos, f.right_pos)) f (k + 1)
          rfl (by omega) hi2' h3' h4''
        simp [runAux, hl, hle, e1, e2]
      · by_cases hint : envIntersects e f = true
        · obtain ⟨e1, e2⟩ := ih ((b0 :: bmid) ++ [f])
            (some (e.1, e.2.1, f.right_pos)) f (k + 1)
            (getLast?_append_single _ f) (by omega) hi2' h3' h4''
          simp only [List.cons_append] at e1 e2
          simp [runAux, hl, hle, hint, e1, e2]
        · obtain ⟨e1, e2⟩ := ih [f]
            (some (f.reference_id, f.left_pos, f.right_pos)) f (k + 1)
            rfl (by omega) hi2' h3' h4''
          simp [runAux, hl, hle, hint, e1, e2]

end FeatureOverlapper

/-- Claim C5, counterexample: on the ascending stream
`[(0,1,100),(0,2,3),(0,50,60)]` the third record intersects the claimed
envelope `(reference_id, min left_pos, max right_pos) = (0,1,100)` of the
current group, yet the overlapper starts a new group: the stored
envelope's right bound was overwritten by the *last appended* record's
`right_pos = 3`, not kept at the maximum. -/
theorem c5_overlap_grouper_envelope_counterexample :
    chainLEb [(⟨0, 1, 100, false, ()⟩ : GenomeFeature Unit),
      ⟨0, 2, 3, false, ()⟩, ⟨0, 50, 60, false, ()⟩] = true ∧
    FeatureOverlapper.claimEnvelope
      [(⟨0, 1, 100, false, ()⟩ : GenomeFeature Unit), ⟨0, 2, 3, false, ()⟩]
      ⟨0, 50, 60, false, ()⟩ = true ∧
    FeatureOverlapper.groups [(⟨0, 1, 100, false, ()⟩ : GenomeFeature Unit),
      ⟨0, 2, 3, false, ()⟩, ⟨0, 50, 60, false, ()⟩] =
      [[⟨0, 1, 100, false, ()⟩, ⟨0, 2, 3, false, ()⟩], [⟨0, 50, 60, false, ()⟩]] ∧
    FeatureOverlapper.groups [(⟨0, 1, 100, false, ()⟩ : GenomeFeature Unit),
      ⟨0, 2, 3, false, ()⟩, ⟨0, 50, 60, false, ()⟩] ≠
      [[⟨0, 1, 100, false, ()⟩, ⟨0, 2, 3, false, ()⟩, ⟨0, 50, 60, false, ()⟩]] := by
  refine ⟨by decide, by decide, by decide, by decide⟩

/-- Claim C5 as amended: on ascending input the overlapper runs without
error and groups by chaining against the envelope whose reference and
left bound come from the group's first record and whose right bound is
the right position of the *most recently added* record (`specRun`); every
record is emitted exactly once, in original relative order, and the
claimed scenario `[(0,1,5),(0,3,8),(0,20,25)]` yields
`[[(0,1,5),(0,3,8)],[(0,20,25)]]`. -/
theorem c5_overlap_grouper_chaining {δ : Type}
    (fs : List (GenomeFeature δ)) (h : chainLEb fs = true) :
    (FeatureOverlapper.run fs).2.2 = false ∧
    FeatureOverlapper.groups fs = FeatureOverlapper.specGroups fs ∧
    (FeatureOverlapper.groups fs).flatten = fs ∧
    FeatureOverlapper.groups [(⟨0, 1, 5, false, ()⟩ : GenomeFeature Unit),
      ⟨0, 3, 8, false, ()⟩, ⟨0, 20, 25, false, ()⟩] =
      [[⟨0, 1, 5, false, ()⟩, ⟨0, 3, 8, false, ()⟩], [⟨0, 20, 25, false, ()⟩]] := by
  have hmain : (FeatureOverlapper.run fs).2.2 = false ∧
      FeatureOverlapper.groups fs = FeatureOverlapper.specGroups fs ∧
      (FeatureOverlapper.groups fs).flatten = fs := by
    rcases fs with _ | ⟨f, rest⟩
    · refine ⟨rfl, rfl, rfl⟩
    · have hrec := FeatureOverlapper.runAux_spec rest f f [] rfl h
      have hrun : FeatureOverlapper.run (f :: rest) =
          (FeatureOverlapper.specRun rest [f], rest.length + 1, false) := by
        simp [FeatureOverlapper.run, FeatureOverlapper.runAux, hrec]
      have hspec : FeatureOverlapper.specGroups (f :: rest) =
          FeatureOverlapper.specRun rest [f] := by
        simp [FeatureOverlapper.specGroups, FeatureOverlapper.specRun,
          FeatureOverlapper.codeJoins]
      refine ⟨by rw [hrun], ?_, ?_⟩
      · rw [FeatureOverlapper.groups, hrun, hspec]
      · rw [FeatureOverlapper.groups, hrun]
        simpa using FeatureOverlapper.specRun_flatten rest [f]
  exact ⟨hmain.1, hmain.2.1, hmain.2.2, by decide⟩

/-- Closed witness for the amended C5 on a concrete ascending stream. -/
theorem c5_overlap_grouper_chaining_witness :
    (FeatureOverlapper.run [(⟨0, 1, 5, false, ()⟩ : GenomeFeature Unit),
        ⟨0, 3, 8, false, ()⟩, ⟨0, 20, 25, false, ()⟩]).2.2 = false ∧
    FeatureOverlapper.groups [(⟨0, 1, 5, false, ()⟩ : GenomeFeature Unit),
        ⟨0, 3, 8, false, ()⟩, ⟨0, 20, 25, false, ()⟩] =
      FeatureOverlapper.specGroups [(⟨0, 1, 5, false, ()⟩ : GenomeFeature Unit),
        ⟨0, 3, 8, false, ()⟩, ⟨0, 20, 25, false, ()⟩] ∧
    (FeatureOverlapper.groups [(⟨0, 1, 5, false, ()⟩ : GenomeFeature Unit),
        ⟨0, 3, 8, false, ()⟩, ⟨0, 20, 25, false, ()⟩]).flatten =
      [(⟨0, 1, 5, false, ()⟩ : GenomeFeature Unit),
        ⟨0, 3, 8, false, ()⟩, ⟨0, 20, 25, false, ()⟩] ∧
    FeatureOverlapper.groups [(⟨0, 1, 5, false, ()⟩ : GenomeFeature Unit),
      ⟨0, 3, 8, false, ()⟩, ⟨0, 20, 25, false, ()⟩] =
      [[⟨0, 1, 5, false, ()⟩, ⟨0, 3, 8, false, ()⟩], [⟨0, 20, 25, false, ()⟩]] :=
  c5_overlap_grouper_chaining [⟨0, 1, 5, false, ()⟩,
    ⟨0, 3, 8, false, ()⟩, ⟨0, 20, 25, false, ()⟩] (by decide)

/-- Claim C9, counterexample: the ordering errors carry no information
about the offending record's position.  Two streams whose first
out-of-order record sits at different indices (1 versus 2) produce the
identical, constant `RuntimeError` value from `GenomeBuffer`
(`'features not sorted correctly'`) and the identical bare
`AssertionError` outcome from `FeatureOverlapper`. -/
theorem c9_error_reports_no_position_counterexample :
    chainLEb [(⟨0, 5, 5, false, ()⟩ : GenomeFeature Unit),
      ⟨0, 3, 3, false, ()⟩] = false ∧
    chainLEb [(⟨0, 1, 1, false, ()⟩ : GenomeFeature Unit),
      ⟨0, 5, 5, false, ()⟩] = true ∧
    chainLEb [(⟨0, 1, 1, false, ()⟩ : GenomeFeature Unit),
      ⟨0, 5, 5, false, ()⟩, ⟨0, 3, 3, false, ()⟩] = false ∧
    (GenomeBuffer.run 2 (GenomeBuffer.init
        (⟨0, 5, 5, false, ()⟩ : GenomeFeature Unit)
        [⟨0, 3, 3, false, ()⟩])).2.2.1 =
      (GenomeBuffer.run 3 (GenomeBuffer.init
        (⟨0, 1, 1, false, ()⟩ : GenomeFeature Unit)
        [⟨0, 5, 5, false, ()⟩, ⟨0, 3, 3, false, ()⟩])).2.2.1 ∧
    (GenomeBuffer.run 2 (GenomeBuffer.init
        (⟨0, 5, 5, false, ()⟩ : GenomeFeature Unit)
        [⟨0, 3, 3, false, ()⟩])).2.2.1 =
      some "features not sorted correctly" ∧
    (FeatureOverlapper.run [(⟨0, 5, 5, false, ()⟩ : GenomeFeature Unit),
        ⟨0, 3, 3, false, ()⟩]).2.2 = true ∧
    (FeatureOverlapper.run [(⟨0, 1, 1, false, ()⟩ : GenomeFeature Unit),
        ⟨0, 5, 5, false, ()⟩, ⟨0, 3, 3, false, ()⟩]).2.2 = true := by
  refine ⟨by decide, by decide, by decide, by decide, by decide,
    by decide, by decide⟩

/-- Claim C9 as amended: in both order-checked components the fatal
ordering error is raised exactly when the first out-of-order record
(index `i`, comparing `<` against its predecessor) is consumed — the
overlapper consumes exactly records `0..i` before dying, and the buffer's
first `i - 1` `advance()` calls return normally while call `i` raises the
`RuntimeError` — but the error itself does not report the record's
position (it is the constant message `'features not sorted correctly'`,
respectively a bare `AssertionError`). -/
theorem c9_order_error_exact_index {δ : Type} (f : GenomeFeature δ)
    (rest : List (GenomeFeature δ)) (i : Nat)
    (h1 : 1 ≤ i) (h2 : i ≤ rest.length)
    (h3 : chainLEb ((f :: rest).take (i + 1)) = false)
    (h4 : chainLEb ((f :: rest).take i) = true) :
    (FeatureOverlapper.run (f :: rest)).2.1 = i + 1 ∧
    (FeatureOverlapper.run (f :: rest)).2.2 = true ∧
    (GenomeBuffer.run (rest.length + 1) (GenomeBuffer.init f rest)).2.2.1 =
      some "features not sorted correctly" ∧
    (GenomeBuffer.run (rest.length + 1) (GenomeBuffer.init f rest)).1.length =
      i - 1 := by
  obtain ⟨o1, o2⟩ := FeatureOverlapper.runAux_err rest [f]
    (some (f.reference_id, f.left_pos, f.right_pos)) f i rfl h1 h2 h3 h4
  obtain ⟨g1, g2⟩ := gbRun_err_aux rest (GenomeBuffer.init f rest) f i
    rfl rfl h1 h2 h3 h4
  refine ⟨?_, ?_, g1, g2⟩ <;>
    simp [FeatureOverlapper.run, FeatureOverlapper.runAux, o1, o2]

/-- Closed witness for the amended C9: stream
`[(0,5),(0,9),(0,7)]` with its first out-of-order record at index 2. -/
theorem c9_order_error_exact_index_witness :
    (FeatureOverlapper.run [(⟨0, 5, 5, false, ()⟩ : GenomeFeature Unit),
        ⟨0, 9, 9, false, ()⟩, ⟨0, 7, 7, false, ()⟩]).2.1 = 2 + 1 ∧
    (FeatureOverlapper.run [(⟨0, 5, 5, false, ()⟩ : GenomeFeature Unit),
        ⟨0, 9, 9, false, ()⟩, ⟨0, 7, 7, false, ()⟩]).2.2 = true ∧
    (GenomeBuffer.run ([(⟨0, 9, 9, false, ()⟩ : GenomeFeature Unit),
          ⟨0, 7, 7, false, ()⟩].length + 1)
        (GenomeBuffer.init (⟨0, 5, 5, false, ()⟩ : GenomeFeature Unit)
          [⟨0, 9, 9, false, ()⟩, ⟨0, 7, 7, false, ()⟩])).2.2.1 =
      some "features not sorted correctly" ∧
    (GenomeBuffer.run ([(⟨0, 9, 9, false, ()⟩ : GenomeFeature Unit),
          ⟨0, 7, 7, false, ()⟩].length + 1)
        (GenomeBuffer.init (⟨0, 5, 5, false, ()⟩ : GenomeFeature Unit)
          [⟨0, 9, 9, false, ()⟩, ⟨0, 7, 7, false, ()⟩])).1.length = 2 - 1 :=
  c9_order_error_exact_index ⟨0, 5, 5, false, ()⟩
    [⟨0, 9, 9, false, ()⟩, ⟨0, 7, 7, false, ()⟩] 2
    (by decide) (by decide) (by decide) (by decide)

/-- Claim C8: for every two records `a` and `b`, `intersects(a,b)` equals
`intersects(b,a)`; `a.intersection(b)` is `None` iff they do not
intersect; and when they intersect, the result is a record on the same
reference spanning exactly `[max(left_pos), min(right_pos)]` carrying
`a`'s payload. -/
theorem c8_intersection_algebra {δ : Type} (a b : GenomeFeature δ)
    (_ha : a.left_pos ≤ a.right_pos) (_hb : b.left_pos ≤ b.right_pos) :
    intersects a b = intersects b a ∧
    (intersection a b = none ↔ intersects a b = false) ∧
    intersection a b =
      (if intersects a b then
        some ⟨a.reference_id, max a.left_pos b.left_pos,
          min a.right_pos b.right_pos, false, a.data⟩
      else none) := by
  refine ⟨?_, ?_, rfl⟩
  · rw [Bool.eq_iff_iff]
    simp only [intersects, Bool.and_eq_true, Bool.not_eq_true',
      Bool.or_eq_false_iff, decide_eq_false_iff_not, not_lt, beq_iff_eq]
    constructor <;> rintro ⟨h1, h2, h3⟩ <;> exact ⟨h1.symm, h3, h2⟩
  · unfold intersection
    split <;> simp_all

/-- Closed witness for C8 at concrete records. -/
theorem c8_intersection_algebra_witness :
    intersects (⟨0, 1, 10, false, ()⟩ : GenomeFeature Unit) ⟨0, 5, 20, false, ()⟩ =
      intersects (⟨0, 5, 20, false, ()⟩ : GenomeFeature Unit) ⟨0, 1, 10, false, ()⟩ ∧
    (intersection (⟨0, 1, 10, false, ()⟩ : GenomeFeature Unit) ⟨0, 5, 20, false, ()⟩ = none ↔
      intersects (⟨0, 1, 10, false, ()⟩ : GenomeFeature Unit) ⟨0, 5, 20, false, ()⟩ = false) ∧
    intersection (⟨0, 1, 10, false, ()⟩ : GenomeFeature Unit) ⟨0, 5, 20, false, ()⟩ =
      (if intersects (⟨0, 1, 10, false, ()⟩ : GenomeFeature Unit) ⟨0, 5, 20, false, ()⟩ then
        some ⟨0, max 1 5, min 10 20, false, ()⟩
      else none) :=
  c8_intersection_algebra ⟨0, 1, 10, false, ()⟩ ⟨0, 5, 20, false, ()⟩
    (by decide) (by decide)

/-- Claim C4 (code evidence): `union` on records sharing a reference
mutates `self` — `self.shift_right(1)` is the in-place mutator, which
increments `right_pos` and returns `None` — and then raises
`AttributeError` inside `right_of(None)`; only the different-reference
case returns the documented `None` without error.  Evaluated at
`a = b = (ref 0, [1,10])` and at a cross-reference pair. -/
theorem c4_union_crashes_on_same_reference :
    union (⟨0, 1, 10, false, ()⟩ : GenomeFeature Unit) ⟨0, 1, 10, false, ()⟩ =
      (⟨0, 1, 11, false, ()⟩, .error ()) ∧
    union (⟨0, 1, 10, false, ()⟩ : GenomeFeature Unit) ⟨1, 1, 10, false, ()⟩ =
      (⟨0, 1, 10, false, ()⟩, .ok none) :=
  ⟨rfl, rfl⟩

/-- Claim C6 (code evidence): `GenomeArray.shift` with a negative
distance smaller in magnitude than the window pops nothing from the
right (`range` of a negative number is empty) yet still extends the left
with default values, so the payload outgrows the span: shifting the
length-2 window `[1,2]` with payload `[5,7]` by `-1` leaves a length-3
payload `[0,5,7]` on the length-2 span `[0,1]`. -/
theorem c6_shift_breaks_lockstep :
    GenomeArray.shift (⟨0, 1, 2, false, [5, 7], 0⟩ : GenomeArray Int) (-1) =
      ⟨0, 0, 1, false, [0, 5, 7], 0⟩ ∧
    GenomeArray.lockStep
      (GenomeArray.shift (⟨0, 1, 2, false, [5, 7], 0⟩ : GenomeArray Int) (-1)) = false ∧
    GenomeArray.lockStep (⟨0, 1, 2, false, [5, 7], 0⟩ : GenomeArray Int) = true := by
  refine ⟨?_, by decide, by decide⟩
  decide

/-- Claim C7 (code evidence): `GenomeArray.intersection` slices
`range(new_left - left_pos, new_right - left_pos)` — one element short of
the inclusive sub-span — so the constructor's
`len(self.data) == len(self)` assertion fails on every overlap; only the
disjoint/different-reference cases return the documented `None`. -/
theorem c7_intersection_assertion_fails :
    GenomeArray.intersection (⟨0, 1, 3, false, [10, 20, 30], 0⟩ : GenomeArray Int)
      (⟨0, 2, 5, false, ()⟩ : GenomeFeature Unit) = .error () ∧
    GenomeArray.intersection (⟨0, 1, 3, false, [10, 20, 30], 0⟩ : GenomeArray Int)
      (⟨1, 2, 5, false, ()⟩ : GenomeFeature Unit) = .ok none ∧
    GenomeArray.intersection (⟨0, 1, 3, false, [10, 20, 30], 0⟩ : GenomeArray Int)
      (⟨0, 7, 9, false, ()⟩ : GenomeFeature Unit) = .ok none :=
  ⟨rfl, rfl, rfl⟩

/-- Claim C10: `shift_left` raises `IndexError` exactly when
`distance > len - 1` and `shift_right` exactly when
`distance < -(len - 1)`, in both cases before any coordinate changes, so
the record is unchanged on error; and every in-place coordinate mutator
that returns normally preserves `right_pos >= left_pos`. -/
theorem c10_shift_guards {δ : Type} (f : GenomeFeature δ) (d : Int)
    (hwf : f.left_pos ≤ f.right_pos) :
    ((shift_left f d).2.isSome ↔ d > flen f - 1) ∧
    ((shift_left f d).2.isSome → (shift_left f d).1 = f) ∧
    ((shift_right f d).2.isSome ↔ d < -(flen f - 1)) ∧
    ((shift_right f d).2.isSome → (shift_right f d).1 = f) ∧
    ((shift_left f d).2 = none →
      (shift_left f d).1.left_pos ≤ (shift_left f d).1.right_pos) ∧
    ((shift_right f d).2 = none →
      (shift_right f d).1.left_pos ≤ (shift_right f d).1.right_pos) ∧
    (shift f d).1.left_pos ≤ (shift f d).1.right_pos ∧
    ((shift_start f d).2 = none →
      (shift_start f d).1.left_pos ≤ (shift_start f d).1.right_pos) ∧
    ((shift_end f d).2 = none →
      (shift_end f d).1.left_pos ≤ (shift_end f d).1.right_pos) ∧
    ((shift_forward f d).2 = none →
      (shift_forward f d).1.left_pos ≤ (shift_forward f d).1.right_pos) := by
  unfold shift_start shift_end shift_forward shift_left shift_right shift flen
  cases f.is_reverse <;> simp only [Bool.false_eq_true, if_false, if_true] <;>
    split_ifs <;> simp_all <;> omega

/-- A concrete well-formed record used by witnesses. -/
def sampleFeat : GenomeFeature Unit := ⟨0, 1, 5, false, ()⟩

/-- Closed witness for C10 at a concrete record and distance. -/
theorem c10_shift_guards_witness :
    ((shift_left sampleFeat 2).2.isSome ↔ (2:Int) > flen sampleFeat - 1) ∧
    ((shift_left sampleFeat 2).2.isSome → (shift_left sampleFeat 2).1 = sampleFeat) ∧
    ((shift_right sampleFeat 2).2.isSome ↔ (2:Int) < -(flen sampleFeat - 1)) ∧
    ((shift_right sampleFeat 2).2.isSome → (shift_right sampleFeat 2).1 = sampleFeat) ∧
    ((shift_left sampleFeat 2).2 = none →
      (shift_left sampleFeat 2).1.left_pos ≤ (shift_left sampleFeat 2).1.right_pos) ∧
    ((shift_right sampleFeat 2).2 = none →
      (shift_right sampleFeat 2).1.left_pos ≤ (shift_right sampleFeat 2).1.right_pos) ∧
    (shift sampleFeat 2).1.left_pos ≤ (shift sampleFeat 2).1.right_pos ∧
    ((shift_start sampleFeat 2).2 = none →
      (shift_start sampleFeat 2).1.left_pos ≤ (shift_start sampleFeat 2).1.right_pos) ∧
    ((shift_end sampleFeat 2).2 = none →
      (shift_end sampleFeat 2).1.left_pos ≤ (shift_end sampleFeat 2).1.right_pos) ∧
    ((shift_forward sampleFeat 2).2 = none →
      (shift_forward sampleFeat 2).1.left_pos ≤ (shift_forward sampleFeat 2).1.right_pos) :=
  c10_shift_guards sampleFeat 2 (by decide)

/-- Invariant induction for `GenomeBuffer.run`: from any state whose
buffer ends with the most recently pulled feature `l` and whose pending
source continues ascending from `l`, the run terminates without a sort
error, the concatenation of the returned eviction lists plus the finally
drained records is exactly the buffered-plus-pending sequence, and the
final state has an empty buffer and an exhausted source. -/
lemma gbRun_conserves_aux {δ : Type} :
    ∀ (src : List (GenomeFeature δ)) (st : GBState δ) (l : GenomeFeature δ),
      st.src = src → st.buf.getLast? = some l →
      chainLEb (l :: src) = true →
      (GenomeBuffer.run (src.length + 1) st).2.2.1 = none ∧
      (GenomeBuffer.run (src.length + 1) st).1.flatten ++
        (GenomeBuffer.run (src.length + 1) st).2.1 = st.buf ++ src ∧
      (GenomeBuffer.run (src.length + 1) st).2.2.2.buf = [] ∧
      (GenomeBuffer.run (src.length + 1) st).2.2.2.src = [] := by
  intro src
  induction src with
  | nil =>
    intro st l hsrc _hlast _hchain
    simp [GenomeBuffer.run, GenomeBuffer.advance, hsrc]
  | cons x rest ih =>
    intro st l hsrc hlast hchain
    rw [chainLEb_cons_cons, Bool.and_eq_true] at hchain
    obtain ⟨hle, hchain2⟩ := hchain
    by_cases hev : pairLt (st.reference_id, st.right_pos)
        (x.reference_id, x.left_pos) = true
    · have hadv : GenomeBuffer.advance st =
          ({ reference_id := x.reference_id, left_pos := x.left_pos,
             right_pos := if pairLt (x.reference_id, st.right_pos)
                 (x.reference_id, x.right_pos)
               then x.right_pos else st.right_pos,
             buf := [x], src := rest }, .output st.buf) := by
        simp [GenomeBuffer.advance, hsrc, hlast, hle, hev]
      obtain ⟨h1, h2, h3, h4⟩ := ih
        { reference_id := x.reference_id, left_pos := x.left_pos,
          right_pos := if pairLt (x.reference_id, st.right_pos)
              (x.reference_id, x.right_pos)
            then x.right_pos else st.right_pos,
          buf := [x], src := rest } x rfl rfl hchain2
      refine ⟨?_, ?_, ?_, ?_⟩ <;>
        simp_all [GenomeBuffer.run, hadv]
    · have hadv : GenomeBuffer.advance st =
          ({ reference_id := x.reference_id,
             left_pos := match st.buf with
               | [] => x.left_pos
               | y :: _ => y.left_pos,
             right_pos := if pairLt (x.reference_id, st.right_pos)
                 (x.reference_id, x.right_pos)
               then x.right_pos else st.right_pos,
             buf := st.buf ++ [x], src := rest }, .output []) := by
        simp [GenomeBuffer.advance, hsrc, hlast, hle, hev]
      obtain ⟨h1, h2, h3, h4⟩ := ih
        { reference_id := x.reference_id,
          left_pos := match st.buf with
            | [] => x.left_pos
            | y :: _ => y.left_pos,
          right_pos := if pairLt (x.reference_id, st.right_pos)
              (x.reference_id, x.right_pos)
            then x.right_pos else st.right_pos,
          buf := st.buf ++ [x], src := rest } x rfl
        (getLast?_append_single st.buf x) hchain2
      refine ⟨?_, ?_, ?_, ?_⟩ <;>
        simp_all [GenomeBuffer.run, hadv]

/-- Claim C1: for every ascending input sequence fed through
`GenomeBuffer`, the concatenation of the lists returned by successive
`advance()` calls plus the records drained by the exhausting call is
exactly the input sequence — each record once, in original relative
order — and exhaustion (`StopIteration`) happens only once the source is
empty and the buffer has been emptied. -/
theorem c1_eviction_buffer_conservation {δ : Type} (f : GenomeFeature δ)
    (rest : List (GenomeFeature δ)) (h : chainLEb (f :: rest) = true) :
    (GenomeBuffer.run (rest.length + 1) (GenomeBuffer.init f rest)).2.2.1 = none ∧
    (GenomeBuffer.run (rest.length + 1) (GenomeBuffer.init f rest)).1.flatten ++
      (GenomeBuffer.run (rest.length + 1) (GenomeBuffer.init f rest)).2.1 =
      f :: rest ∧
    (GenomeBuffer.run (rest.length + 1) (GenomeBuffer.init f rest)).2.2.2.buf = [] ∧
    (GenomeBuffer.run (rest.length + 1) (GenomeBuffer.init f rest)).2.2.2.src = [] := by
  have := gbRun_conserves_aux rest (GenomeBuffer.init f rest) f rfl rfl h
  simpa [GenomeBuffer.init] using this

/-- Closed witness for C1 on a concrete ascending stream. -/
theorem c1_eviction_buffer_conservation_witness :
    (GenomeBuffer.run 3 (GenomeBuffer.init (⟨0, 1, 5, false, ()⟩ : GenomeFeature Unit)
        [⟨0, 3, 4, false, ()⟩, ⟨1, 2, 2, false, ()⟩])).2.2.1 = none ∧
    (GenomeBuffer.run 3 (GenomeBuffer.init (⟨0, 1, 5, false, ()⟩ : GenomeFeature Unit)
        [⟨0, 3, 4, false, ()⟩, ⟨1, 2, 2, false, ()⟩])).1.flatten ++
      (GenomeBuffer.run 3 (GenomeBuffer.init (⟨0, 1, 5, false, ()⟩ : GenomeFeature Unit)
        [⟨0, 3, 4, false, ()⟩, ⟨1, 2, 2, false, ()⟩])).2.1 =
      ⟨0, 1, 5, false, ()⟩ :: [⟨0, 3, 4, false, ()⟩, ⟨1, 2, 2, false, ()⟩] ∧
    (GenomeBuffer.run 3 (GenomeBuffer.init (⟨0, 1, 5, false, ()⟩ : GenomeFeature Unit)
        [⟨0, 3, 4, false, ()⟩, ⟨1, 2, 2, false, ()⟩])).2.2.2.buf = [] ∧
    (GenomeBuffer.run 3 (GenomeBuffer.init (⟨0, 1, 5, false, ()⟩ : GenomeFeature Unit)
        [⟨0, 3, 4, false, ()⟩, ⟨1, 2, 2, false, ()⟩])).2.2.2.src = [] :=
  c1_eviction_buffer_conservation ⟨0, 1, 5, false, ()⟩
    [⟨0, 3, 4, false, ()⟩, ⟨1, 2, 2, false, ()⟩] (by decide)

/-- Claim C2: the default merge join of the ascending regions
`[(ref0,1,10),(ref0,11,20)]` (payloads 0) against single-position
queries at 5, 5, 12 yields the first region with payload 2 and the
second with payload 1, each exactly once, in order. -/
theorem c2_default_mergejoin_scenario :
    OperationGenerator.run
      (OperationGenerator.defaultCfg OperationGenerator.defaultOperate)
      [⟨0, 1, 10, false, 0⟩, ⟨0, 11, 20, false, 0⟩]
      [⟨0, 5, 5, false, 0⟩, ⟨0, 5, 5, false, 0⟩, ⟨0, 12, 12, false, 0⟩] =
      [⟨0, 1, 10, false, 2⟩, ⟨0, 11, 20, false, 1⟩] := by
  rfl

end Genomerator
